import Mathlib

/-!
A shallow embedding of the goreload live-reload notifier (package `goreload`):
the directory fingerprint function (`watcher.go`), the `Reloader` pub/sub state
with `subscribe` / `Notify` / `Close` / `Start` / `Enabled` / `SetEnabled`
(`reload.go`), the cache middleware (`middleware.go`), the SSE handler, and the
background watcher loop.  Go's mutex-serialised operations are modelled as pure
state transitions on a `Reloader` value; goroutine interleavings are modelled by
an inductive `Reachable` relation over those transitions.
-/

namespace Goreload

/-! ### SHA-1 and hex encoding (crypto/sha1, encoding/hex)

`directoryFingerprint` feeds `fmt.Fprintf(hasher, "%s:%d:%d;", ...)` output into
`sha1.New()` and hex-encodes the sum.  We implement SHA-1 over `List Nat` bytes
(each < 256, words as `Nat` reduced `% 2^32`), exactly following FIPS 180-1 as
crypto/sha1 does, and lowercase hex encoding as encoding/hex does. -/

/-- Rotate a 32-bit word (a `Nat < 2^32`) left by `k` bits. -/
def rotl (k n : Nat) : Nat :=
  (n % 2 ^ (32 - k)) * 2 ^ k + n / 2 ^ (32 - k)

/-- The SHA-1 round function: choose / parity / majority / parity by round index. -/
def sha1F (t b c d : Nat) : Nat :=
  if t < 20 then Nat.lor (Nat.land b c) (Nat.land (Nat.xor b 4294967295) d)
  else if t < 40 then Nat.xor b (Nat.xor c d)
  else if t < 60 then Nat.lor (Nat.lor (Nat.land b c) (Nat.land b d)) (Nat.land c d)
  else Nat.xor b (Nat.xor c d)

/-- The SHA-1 round constants, by round index. -/
def sha1K (t : Nat) : Nat :=
  if t < 20 then 0x5A827999
  else if t < 40 then 0x6ED9EBA1
  else if t < 60 then 0x8F1BBCDC
  else 0xCA62C1D6

/-- Big-endian decoding of bytes into 32-bit words, four bytes per word. -/
def bytesToWords : List Nat → List Nat
  | b0 :: b1 :: b2 :: b3 :: rest =>
    (((b0 * 256 + b1) * 256 + b2) * 256 + b3) :: bytesToWords rest
  | _ => []

/-- Extend 16 message words to the 80-word SHA-1 schedule. -/
def sha1Schedule (ws : List Nat) : Array Nat :=
  (List.range 64).foldl
    (fun w _ =>
      let i := w.size
      w.push (rotl 1 (Nat.xor (w.getD (i - 3) 0)
        (Nat.xor (w.getD (i - 8) 0) (Nat.xor (w.getD (i - 14) 0) (w.getD (i - 16) 0))))))
    ws.toArray

/-- One SHA-1 compression round on the five-word working state. -/
def sha1Round (w : Array Nat) (st : Nat × Nat × Nat × Nat × Nat) (t : Nat) :
    Nat × Nat × Nat × Nat × Nat :=
  let (a, b, c, d, e) := st
  let tmp := (rotl 5 a + sha1F t b c d + e + sha1K t + w.getD t 0) % 2 ^ 32
  (tmp, a, rotl 30 b, c, d)

/-- Process one 64-byte chunk, updating the five hash words. -/
def sha1Chunk (h : Nat × Nat × Nat × Nat × Nat) (chunk : List Nat) :
    Nat × Nat × Nat × Nat × Nat :=
  let w := sha1Schedule (bytesToWords chunk)
  let (a, b, c, d, e) := (List.range 80).foldl (sha1Round w) h
  ((h.1 + a) % 2 ^ 32, (h.2.1 + b) % 2 ^ 32, (h.2.2.1 + c) % 2 ^ 32,
    (h.2.2.2.1 + d) % 2 ^ 32, (h.2.2.2.2 + e) % 2 ^ 32)

/-- SHA-1 padding: a `0x80` byte, zeros to 56 mod 64, then the 64-bit big-endian
bit length. -/
def sha1Pad (msg : List Nat) : List Nat :=
  let ml := 8 * msg.length % 2 ^ 64
  msg ++ 128 :: List.replicate ((120 - (msg.length + 1) % 64) % 64) 0 ++
    [ml / 2 ^ 56 % 256, ml / 2 ^ 48 % 256, ml / 2 ^ 40 % 256, ml / 2 ^ 32 % 256,
     ml / 2 ^ 24 % 256, ml / 2 ^ 16 % 256, ml / 2 ^ 8 % 256, ml % 256]

/-- Split a byte list into 64-byte chunks. -/
def chunkify : List Nat → List (List Nat)
  | [] => []
  | b :: rest => ((b :: rest).take 64) :: chunkify ((b :: rest).drop 64)
termination_by l => l.length
decreasing_by simp; omega

/-- Big-endian bytes of one 32-bit word. -/
def wordBytes (w : Nat) : List Nat :=
  [w / 2 ^ 24 % 256, w / 2 ^ 16 % 256, w / 2 ^ 8 % 256, w % 256]

/-- SHA-1 of a byte string, as its 20 big-endian digest bytes. -/
def sha1Bytes (msg : List Nat) : List Nat :=
  let h := (chunkify (sha1Pad msg)).foldl sha1Chunk
    (0x67452301, 0xEFCDAB89, 0x98BADCFE, 0x10325476, 0xC3D2E1F0)
  wordBytes h.1 ++ wordBytes h.2.1 ++ wordBytes h.2.2.1 ++
    wordBytes h.2.2.2.1 ++ wordBytes h.2.2.2.2

/-- A lowercase hex digit, as encoding/hex uses. -/
def hexDigit (n : Nat) : Char :=
  if n < 10 then Char.ofNat (48 + n) else Char.ofNat (87 + n)

/-- Lowercase hex encoding of a byte list (encoding/hex `EncodeToString`). -/
def hexEncode (bytes : List Nat) : String :=
  String.mk (bytes.foldr (fun b acc => hexDigit (b / 16) :: hexDigit (b % 16) :: acc) [])

/-- UTF-8 bytes of one code point, as Go strings store them. -/
def utf8Bytes (c : Nat) : List Nat :=
  if c < 128 then [c]
  else if c < 2048 then [192 + c / 64, 128 + c % 64]
  else if c < 65536 then [224 + c / 4096, 128 + c / 64 % 64, 128 + c % 64]
  else [240 + c / 262144, 128 + c / 4096 % 64, 128 + c / 64 % 64, 128 + c % 64]

/-- The UTF-8 bytes of a string. -/
def strBytes (s : String) : List Nat :=
  (s.data.map (fun c => utf8Bytes c.toNat)).flatten

/-- Hex-encoded SHA-1 digest of a string's UTF-8 bytes:
`hex.EncodeToString(hasher.Sum(nil))` for `hasher = sha1.New()` fed `s`. -/
def sha1Hex (s : String) : String :=
  hexEncode (sha1Bytes (strBytes s))

/-! ### The filesystem model and `directoryFingerprint` (watcher.go)

An `fs.FS` is modelled by the sequence of entries `fs.WalkDir` visits, in walk
order.  A `file` entry carries the result of `d.Info()` (which may fail); a
`walkErr` entry models `WalkDir` invoking the callback with a non-nil `err`. -/

/-- The fields of `fs.FileInfo` that `directoryFingerprint` reads:
`info.ModTime().UnixNano()` and `info.Size()`. -/
structure FileInfo where
  modTimeNanos : Int
  size : Int
deriving DecidableEq, Repr

/-- One entry visited by `fs.WalkDir`, in walk order. -/
inductive FSEntry
  /-- A non-directory entry; `info` is the result of `d.Info()`. -/
  | file (path : String) (info : Except String FileInfo)
  /-- A directory entry (`d.IsDir()` true): skipped by the callback. -/
  | dir (path : String)
  /-- The walk callback being invoked with a non-nil error, which it returns. -/
  | walkErr (msg : String)
deriving Repr

instance : DecidableEq (Except String FileInfo)
  | Except.ok a, Except.ok b =>
    if h : a = b then isTrue (by rw [h]) else isFalse (by intro hh; cases hh; exact h rfl)
  | Except.error a, Except.error b =>
    if h : a = b then isTrue (by rw [h]) else isFalse (by intro hh; cases hh; exact h rfl)
  | Except.ok _, Except.error _ => isFalse (by intro h; cases h)
  | Except.error _, Except.ok _ => isFalse (by intro h; cases h)

instance : DecidableEq FSEntry
  | FSEntry.file p i, FSEntry.file q j =>
    if h : p = q ∧ i = j then isTrue (by rw [h.1, h.2])
    else isFalse (by intro hh; cases hh; exact h ⟨rfl, rfl⟩)
  | FSEntry.dir p, FSEntry.dir q =>
    if h : p = q then isTrue (by rw [h]) else isFalse (by intro hh; cases hh; exact h rfl)
  | FSEntry.walkErr p, FSEntry.walkErr q =>
    if h : p = q then isTrue (by rw [h]) else isFalse (by intro hh; cases hh; exact h rfl)
  | FSEntry.file _ _, FSEntry.dir _ => isFalse (by intro h; cases h)
  | FSEntry.file _ _, FSEntry.walkErr _ => isFalse (by intro h; cases h)
  | FSEntry.dir _, FSEntry.file _ _ => isFalse (by intro h; cases h)
  | FSEntry.dir _, FSEntry.walkErr _ => isFalse (by intro h; cases h)
  | FSEntry.walkErr _, FSEntry.file _ _ => isFalse (by intro h; cases h)
  | FSEntry.walkErr _, FSEntry.dir _ => isFalse (by intro h; cases h)

/-- A directory tree, as the list of entries `fs.WalkDir dir "."` visits. -/
abbrev FS := List FSEntry

/-- The bytes one file contributes to the hasher:
`fmt.Fprintf(hasher, "%s:%d:%d;", path, info.ModTime().UnixNano(), info.Size())`. -/
def entryChunk (path : String) (info : FileInfo) : String :=
  path ++ ":" ++ toString info.modTimeNanos ++ ":" ++ toString info.size ++ ";"

/-- The byte stream `directoryFingerprint` feeds into the hasher, or the error
the walk callback propagates: directories are skipped, a walk error or a failed
`d.Info()` aborts the walk, and each regular file appends its `entryChunk`. -/
def walkStream : FS → Except String String
  | [] => Except.ok ""
  | FSEntry.dir _ :: rest => walkStream rest
  | FSEntry.walkErr e :: _ => Except.error e
  | FSEntry.file _ (Except.error e) :: _ => Except.error e
  | FSEntry.file p (Except.ok i) :: rest =>
    (walkStream rest).map (fun s => entryChunk p i ++ s)

/-- `directoryFingerprint` (watcher.go): hex-encoded SHA-1 of the walked
`path:mtime:size;` stream, or `("", err)` on a walk error (the error case of
`Except`, with Go's accompanying zero-value string left implicit). -/
def directoryFingerprint (dir : FS) : Except String String :=
  (walkStream dir).map sha1Hex

/-- The tracked files of a tree: `(relative path, mtime nanos, size)` for every
regular file whose info is readable, in walk order.  "No tracked file was moved,
added, removed, resized, or had its modification time changed" between two trees
is exactly equality of their `trackedFiles` lists. -/
def trackedFiles : FS → List (String × Int × Int)
  | [] => []
  | FSEntry.file p (Except.ok i) :: rest => (p, i.modTimeNanos, i.size) :: trackedFiles rest
  | FSEntry.file _ (Except.error _) :: rest => trackedFiles rest
  | FSEntry.dir _ :: rest => trackedFiles rest
  | FSEntry.walkErr _ :: rest => trackedFiles rest

/-- The hasher stream determined by a tracked-file list alone. -/
def streamOfFiles : List (String × Int × Int) → String
  | [] => ""
  | (p, m, s) :: rest =>
    p ++ ":" ++ toString m ++ ":" ++ toString s ++ ";" ++ streamOfFiles rest

/-- Whether an `FSEntry` is a directory entry. -/
def isDirEntry : FSEntry → Bool
  | FSEntry.dir _ => true
  | _ => false

/-! ### The `Reloader` notifier state (reload.go)

Go's `clients map[int]chan struct{}` maps subscriber ids to single-slot buffered
channels.  We model the channel heap explicitly so a channel's fate can be
tracked after `delete(r.clients, id)` removes it from the map: `chans` holds
every channel ever created, keyed by the subscriber id that created it, and
`clients` is the set of ids currently in the Go map.  A `Chan` records its
buffer contents (`make(chan struct{}, 1)` starts empty, capacity one), whether
`close(ch)` has run, and how many times it has run (Go panics on a second
`close`; the model counts instead, so "no double close" is `closeCount ≤ 1`).
`context.CancelFunc` values are modelled as `Nat` handles; invoking one inserts
its handle into `cancelled` idempotently, as `context` cancellation is. -/

/-- The state of one `chan struct{}` of capacity 1. -/
structure Chan where
  buf : List Unit
  isClosed : Bool
  closeCount : Nat
deriving DecidableEq, Repr

/-- The channel `subscribe` creates: `make(chan struct{}, 1)`, open and empty. -/
def newChan : Chan := { buf := [], isClosed := false, closeCount := 0 }

/-- `close(ch)` on the modelled channel. -/
def closeChan (c : Chan) : Chan :=
  { c with isClosed := true, closeCount := c.closeCount + 1 }

/-- The non-blocking `select { case ch <- struct{}{}: default: }` in `Notify`:
deposit a token if the single slot is free, otherwise skip.  (Under the
reachable-state invariant every channel this is applied to is open.) -/
def trySend (c : Chan) : Chan :=
  if c.buf.length < 1 then { c with buf := c.buf ++ [()] } else c

/-- The `Config` passed to `New`; `maxAgeNanos` is the `time.Duration` value
(`int64` nanoseconds) of the `MaxAge` field. -/
structure Config where
  route : String
  enabled : Bool
  maxAgeNanos : Int
deriving DecidableEq, Repr

/-- The `Reloader` struct.  `clients` is the Go map's key set (channel values
live in `chans`); `cancelled` records which `context.CancelFunc` handles have
been invoked. -/
structure Reloader where
  closed : Bool
  nextID : Nat
  clients : List Nat
  chans : List (Nat × Chan)
  route : String
  enabled : Bool
  maxAge : Int
  watchCancel : Option Nat
  cancelled : List Nat
deriving DecidableEq, Repr

/-- `New(config)`.  Go sets `maxAge: int(config.MaxAge.Seconds())`;
`Duration.Seconds` is `float64(d/Second) + float64(d%Second)/1e9` and Go's
`int(...)` truncates toward zero, which over exact (unrounded) arithmetic is
truncating division of the nanosecond count by 1e9 (IEEE rounding of the
`float64` intermediate is idealised as exact). -/
def New (config : Config) : Reloader :=
  { closed := false
    nextID := 0
    clients := []
    chans := []
    route := config.route
    enabled := config.enabled
    maxAge := Int.tdiv config.maxAgeNanos 1000000000
    watchCancel := none
    cancelled := [] }

/-- Association-list lookup in the channel heap, modelling `r.clients[id]`. -/
def findChan (id : Nat) : List (Nat × Chan) → Option Chan
  | [] => none
  | (k, c) :: rest => if k = id then some c else findChan id rest

/-- Rewrite every channel in the heap as a function of its key. -/
def mapChans (g : Nat → Chan → Chan) (l : List (Nat × Chan)) : List (Nat × Chan) :=
  l.map (fun p => (p.1, g p.1 p.2))

/-- Apply `f` to the channel stored under `id`, leaving the others alone. -/
def updateChan (id : Nat) (f : Chan → Chan) (l : List (Nat × Chan)) : List (Nat × Chan) :=
  mapChans (fun k c => if k = id then f c else c) l

/-- `Reloader.subscribe`: if closed, return the no-op release and nil channel
(`none`); otherwise allocate `id := nextID`, bump the counter, register a fresh
single-slot channel, and hand back its id.  The returned `some id` stands for
the `<-chan struct{}` the caller receives; the release closure it comes with is
`subRelease` below. -/
def subscribe (r : Reloader) : Reloader × Option Nat :=
  if r.closed then (r, none)
  else
    ({ r with
        nextID := r.nextID + 1
        clients := r.nextID :: r.clients
        chans := (r.nextID, newChan) :: r.chans }, some r.nextID)

/-- The body of the release closure `subscribe` returns, once past its
`sync.Once` guard: if `id` is still in the map, close its channel and delete the
entry; otherwise do nothing. -/
def releaseAct (r : Reloader) (id : Nat) : Reloader :=
  if id ∈ r.clients then
    { r with clients := r.clients.erase id, chans := updateChan id closeChan r.chans }
  else r

/-- Invoking the release closure attached to a subscription: `sub = none` is the
closed-notifier case, whose release is the literal no-op `func() {}`; otherwise
the `sync.Once` flag `fired` gates a single run of `releaseAct`. -/
def subRelease (r : Reloader) (sub : Option Nat) (fired : Bool) : Reloader × Bool :=
  match sub with
  | none => (r, fired)
  | some id => if fired then (r, true) else (releaseAct r id, true)

/-- `Reloader.Notify`: no-op when closed; otherwise a non-blocking send into
every channel currently in the map (`for _, ch := range r.clients`). -/
def Notify (r : Reloader) : Reloader :=
  if r.closed then r
  else { r with chans := mapChans (fun k c => if k ∈ r.clients then trySend c else c) r.chans }

/-- Insert-if-absent, modelling that invoking a `context.CancelFunc` a second
time changes nothing. -/
def insertIdem (h : Nat) (l : List Nat) : List Nat :=
  if h ∈ l then l else h :: l

/-- The unguarded prologue of `Close`: `if r.watchCancel != nil { r.watchCancel() }`. -/
def cancelStep (r : Reloader) : Reloader :=
  match r.watchCancel with
  | some h => { r with cancelled := insertIdem h r.cancelled }
  | none => r

/-- `Reloader.Close`: run the watcher cancel handle if present, then (unless
already closed) mark closed, close every subscribed channel, and empty the map. -/
def Close (r : Reloader) : Reloader :=
  let r1 := cancelStep r
  if r1.closed then r1
  else
    { r1 with
        closed := true
        chans := mapChans (fun k c => if k ∈ r1.clients then closeChan c else c) r1.chans
        clients := [] }

/-- `Reloader.Start`'s synchronous effect on the `Reloader`: make a fresh
cancellation handle and store it, unconditionally overwriting any previous one.
(The spawned polling goroutine is modelled by `watchInit` / `watchTick` /
`watchRun` below.) -/
def Start (r : Reloader) (handle : Nat) : Reloader :=
  { r with watchCancel := some handle }

/-- `Reloader.Enabled`. -/
def Enabled (r : Reloader) : Bool :=
  r.enabled

/-- `Reloader.SetEnabled`. -/
def SetEnabled (r : Reloader) (enabled : Bool) : Reloader :=
  { r with enabled := enabled }

/-! ### Cache middleware (middleware.go)

An `http.Handler` is modelled by its action on the response header map; the
middleware either passes the header map through untouched or runs
`w.Header().Set("Cache-Control", ...)` before delegating. -/

/-- A response header map, newest binding first. -/
abbrev Headers := List (String × String)

/-- `w.Header().Set(k, v)`: replace any existing binding of `k` with `v`. -/
def setHeader (hs : Headers) (k v : String) : Headers :=
  (k, v) :: hs.filter (fun p => p.1 ≠ k)

/-- `Reloader.CacheMiddleware`: when disabled, delegate with headers untouched;
when enabled, first set
`Cache-Control: stale-while-revalidate, max-age=<r.maxAge>`. -/
def CacheMiddleware (r : Reloader) (handler : Headers → Headers) : Headers → Headers :=
  fun hs =>
    if Enabled r = false then handler hs
    else handler (setHeader hs "Cache-Control" ("stale-while-revalidate, max-age=" ++ toString r.maxAge))

/-! ### The SSE streaming handler (reload.go `Handler`)

A request is its method plus whether the `http.ResponseWriter` implements
`http.Flusher`.  The handler's `select` loop is driven by a finite schedule of
events: the request context becoming done, the signal channel being closed, or
a value arriving on the signal channel. -/

/-- What the handler's `select` observed, in order. -/
inductive StreamEv
  | ctxDone
  | chClosed
  | chRecv
deriving DecidableEq, Repr

/-- The handler's HTTP response: status code, headers set on the writer, and
the bytes written to the body. -/
structure Response where
  status : Nat
  headers : Headers
  body : String
deriving DecidableEq, Repr

/-- The handler's streaming loop: each received value writes one
`data: reload` event and a blank line; context cancellation or channel close
ends the stream. -/
def streamLoop : List StreamEv → String
  | [] => ""
  | StreamEv.ctxDone :: _ => ""
  | StreamEv.chClosed :: _ => ""
  | StreamEv.chRecv :: rest => "data: reload\n\n" ++ streamLoop rest

/-- The headers `http.Error` sets before writing its message. -/
def errHeaders : Headers :=
  [("Content-Type", "text/plain; charset=utf-8"), ("X-Content-Type-Options", "nosniff")]

/-- The event-stream headers the handler sets on a flushable GET. -/
def sseHeaders : Headers :=
  setHeader (setHeader (setHeader [] "Content-Type" "text/event-stream")
    "Cache-Control" "no-cache") "Connection" "keep-alive"

/-- `Reloader.Handler` serving one request: reject non-GET with 405 before any
subscription; reject a non-`http.Flusher` writer with 500; set the SSE headers;
subscribe, answering 410 if the notifier was closed; otherwise write
`: connected`, stream one `data: reload` event per received signal, and run the
deferred release on exit.  Returns the notifier state after the request
completes alongside the response. -/
def Handler (r : Reloader) (method : String) (canFlush : Bool) (evs : List StreamEv) :
    Reloader × Response :=
  if method ≠ "GET" then
    (r, { status := 405, headers := errHeaders, body := "method not allowed\n" })
  else if canFlush = false then
    (r, { status := 500, headers := errHeaders, body := "streaming unsupported\n" })
  else
    match subscribe r with
    | (r1, none) => (r1, { status := 410, headers := sseHeaders, body := "" })
    | (r1, some id) =>
      (releaseAct r1 id,
        { status := 200, headers := sseHeaders, body := ": connected\n\n" ++ streamLoop evs })

/-! ### The watcher loop (watcher.go `Start`)

The spawned goroutine keeps `lastFingerprint` (a Go string, zero value `""`),
ticks every 500ms, and on each tick rescans; the loop ends only when its
context is cancelled, at which point the deferred `r.Notify()` fires.  A run is
driven by a schedule of tick events, each carrying the tree as seen that tick. -/

/-- `lastFingerprint` after the initial scan: on error Go logs and keeps the
zero-value string returned alongside the error. -/
def watchInit (dir : FS) : String :=
  match directoryFingerprint dir with
  | Except.error _ => ""
  | Except.ok s => s

/-- One tick: rescan; on error log and `continue` (no broadcast, stored value
unchanged); on success broadcast exactly when the digest changed.  Returns the
new `lastFingerprint` and whether `r.Notify()` was called. -/
def watchTick (last : String) (dir : FS) : String × Bool :=
  match directoryFingerprint dir with
  | Except.error _ => (last, false)
  | Except.ok fp => if fp ≠ last then (fp, true) else (last, false)

/-- What the watcher's `select` saw on one iteration: a ticker tick with the
tree in the state it is in at that moment, or the context being cancelled. -/
inductive TickEv
  | tick (dir : FS)
  | done
deriving Repr

/-- Run the watcher loop over a schedule, threading `lastFingerprint` and a
count of `Notify` calls; the third component records whether the loop exited
(it does so only on `done`, which also fires the deferred final `Notify`).  A
schedule that runs out leaves the loop still waiting. -/
def watchRun : String → Nat → List TickEv → String × Nat × Bool
  | last, n, [] => (last, n, false)
  | last, n, TickEv.done :: _ => (last, n + 1, true)
  | last, n, TickEv.tick dir :: rest =>
    let (last1, notified) := watchTick last dir
    watchRun last1 (if notified then n + 1 else n) rest

/-! ### Reachable notifier states

Every mutation of a `Reloader` in the package goes through one of the
operations below (the handler's subscribe/release included); `Reachable` closes
the constructors over them, starting from `New`. -/

/-- One mutation step on the notifier state. -/
inductive Step : Reloader → Reloader → Prop
  | subscribeS (r : Reloader) : Step r (subscribe r).1
  | releaseS (r : Reloader) (id : Nat) : Step r (releaseAct r id)
  | notifyS (r : Reloader) : Step r (Notify r)
  | closeS (r : Reloader) : Step r (Close r)
  | startS (r : Reloader) (h : Nat) : Step r (Start r h)
  | setEnabledS (r : Reloader) (b : Bool) : Step r (SetEnabled r b)

/-- States reachable from some `New config` by the package's operations. -/
inductive Reachable : Reloader → Prop
  | init (config : Config) : Reachable (New config)
  | step {r r' : Reloader} : Reachable r → Step r r' → Reachable r'

/-- The body the stream accumulates after `n` reload events. -/
def reloadBody : Nat → String
  | 0 => ""
  | n + 1 => "data: reload\n\n" ++ reloadBody n

/-! ### Concrete example states, mirroring the example application's
configuration (`Route: "/dev/reload"`, `Enabled: true`, `MaxAge: time.Hour`) -/

def cfgEx : Config := { route := "/dev/reload", enabled := true, maxAgeNanos := 3600000000000 }

/-- A notifier with one live subscriber (id 0). -/
def rEx : Reloader := (subscribe (New cfgEx)).1

/-- The same notifier after `Close`. -/
def rClosedEx : Reloader := Close rEx

/-- A single file whose name contains the serialisation separators. -/
def fsCollideA : FS := [FSEntry.file "x:1:2;y" (Except.ok ⟨3, 4⟩)]

/-- Two ordinary files producing the same hasher stream as `fsCollideA`. -/
def fsCollideB : FS :=
  [FSEntry.file "x" (Except.ok ⟨1, 2⟩), FSEntry.file "y" (Except.ok ⟨3, 4⟩)]

/-! ### Channel-heap lemmas -/

theorem findChan_mapChans (g : Nat → Chan → Chan) (id : Nat) (l : List (Nat × Chan)) :
    findChan id (mapChans g l) = (findChan id l).map (g id) := by
  induction l with
  | nil => rfl
  | cons p rest ih =>
    obtain ⟨k, c⟩ := p
    by_cases h : k = id
    · subst h; simp [mapChans, findChan]
    · simp only [mapChans, List.map_cons, findChan, if_neg h]
      exact ih

theorem mem_mapChans {g : Nat → Chan → Chan} {p : Nat × Chan} {l : List (Nat × Chan)} :
    p ∈ mapChans g l ↔ ∃ q ∈ l, p = (q.1, g q.1 q.2) := by
  simp only [mapChans, List.mem_map]
  constructor
  · rintro ⟨q, hq, rfl⟩; exact ⟨q, hq, rfl⟩
  · rintro ⟨q, hq, rfl⟩; exact ⟨q, hq, rfl⟩

theorem keys_mapChans (g : Nat → Chan → Chan) (l : List (Nat × Chan)) :
    (mapChans g l).map Prod.fst = l.map Prod.fst := by
  induction l with
  | nil => rfl
  | cons p rest ih => simp only [mapChans, List.map_cons] at ih ⊢; rw [ih]

theorem findChan_mem {id : Nat} {c : Chan} : ∀ {l : List (Nat × Chan)},
    findChan id l = some c → (id, c) ∈ l := by
  intro l
  induction l with
  | nil => intro h; cases h
  | cons p rest ih =>
    obtain ⟨k, v⟩ := p
    intro h
    by_cases hk : k = id
    · subst hk
      have h2 : v = c := by simpa [findChan] using h
      subst h2; exact List.mem_cons_self _ _
    · simp only [findChan, if_neg hk] at h
      exact List.mem_cons_of_mem _ (ih h)

theorem mem_findChan : ∀ {l : List (Nat × Chan)}, (l.map Prod.fst).Nodup →
    ∀ {id : Nat} {c : Chan}, (id, c) ∈ l → findChan id l = some c := by
  intro l
  induction l with
  | nil => intro _ id c h; cases h
  | cons p rest ih =>
    obtain ⟨k, v⟩ := p
    intro hnd id c h
    rw [List.map_cons, List.nodup_cons] at hnd
    rcases List.mem_cons.mp h with heq | hmem
    · cases heq; simp [findChan]
    · by_cases hk : k = id
      · subst hk
        exact absurd (List.mem_map.mpr ⟨(k, c), hmem, rfl⟩) hnd.1
      · simp only [findChan, if_neg hk]
        exact ih hnd.2 hmem

/-! ### The reachable-state invariant -/

/-- The lifecycle invariant of one heap entry: a channel still in the map is
open, never closed, with at most one buffered token; a channel no longer in the
map has been closed exactly once. -/
def ChanOk (clients : List Nat) (p : Nat × Chan) : Prop :=
  (p.1 ∈ clients ∧ p.2.isClosed = false ∧ p.2.closeCount = 0 ∧ p.2.buf.length ≤ 1) ∨
  (p.1 ∉ clients ∧ p.2.isClosed = true ∧ p.2.closeCount = 1)

/-- The structural invariant every reachable `Reloader` satisfies. -/
structure WellFormed (r : Reloader) : Prop where
  keysNodup : (r.chans.map Prod.fst).Nodup
  clientsNodup : r.clients.Nodup
  keysBound : ∀ p ∈ r.chans, p.1 < r.nextID
  clientsHaveChans : ∀ id ∈ r.clients, ∃ c, (id, c) ∈ r.chans
  chanOk : ∀ p ∈ r.chans, ChanOk r.clients p
  closedEmpty : r.closed = true → r.clients = []

theorem wf_New (config : Config) : WellFormed (New config) := by
  constructor <;> simp [New]

theorem wf_subscribe {r : Reloader} (h : WellFormed r) : WellFormed (subscribe r).1 := by
  by_cases hc : r.closed
  · simpa [subscribe, hc] using h
  · have hfresh : ∀ id ∈ r.clients, id < r.nextID := by
      intro id hid
      obtain ⟨c, hcmem⟩ := h.clientsHaveChans id hid
      exact h.keysBound (id, c) hcmem
    simp only [subscribe, if_neg hc]
    refine ⟨?_, ?_, ?_, ?_, ?_, ?_⟩ <;> dsimp only
    · rw [List.map_cons, List.nodup_cons]
      refine ⟨fun hmem => ?_, h.keysNodup⟩
      obtain ⟨p, hp, hp1⟩ := List.mem_map.mp hmem
      have := h.keysBound p hp
      omega
    · exact List.nodup_cons.mpr ⟨fun hmem => Nat.lt_irrefl _ (hfresh _ hmem), h.clientsNodup⟩
    · intro p hp
      rcases List.mem_cons.mp hp with heq | hmem
      · cases heq; exact Nat.lt_succ_self _
      · exact Nat.lt_succ_of_lt (h.keysBound p hmem)
    · intro id hid
      rcases List.mem_cons.mp hid with heq | hmem
      · exact ⟨newChan, heq ▸ List.mem_cons_self _ _⟩
      · obtain ⟨c, hcmem⟩ := h.clientsHaveChans id hmem
        exact ⟨c, List.mem_cons_of_mem _ hcmem⟩
    · intro p hp
      rcases List.mem_cons.mp hp with heq | hmem
      · cases heq
        exact Or.inl ⟨List.mem_cons_self _ _, rfl, rfl, by simp [newChan]⟩
      · rcases h.chanOk p hmem with ⟨h1, h2⟩ | ⟨h1, h2⟩
        · exact Or.inl ⟨List.mem_cons_of_mem _ h1, h2⟩
        · refine Or.inr ⟨fun hmem2 => ?_, h2⟩
          rcases List.mem_cons.mp hmem2 with heq2 | hmem3
          · have := h.keysBound p hmem; omega
          · exact h1 hmem3
    · intro hcl; exact absurd hcl hc

theorem wf_releaseAct {r : Reloader} (h : WellFormed r) (id : Nat) :
    WellFormed (releaseAct r id) := by
  by_cases hm : id ∈ r.clients
  · simp only [releaseAct, if_pos hm, updateChan]
    refine ⟨?_, ?_, ?_, ?_, ?_, ?_⟩ <;> dsimp only
    · rw [keys_mapChans]; exact h.keysNodup
    · exact h.clientsNodup.erase id
    · intro p hp
      obtain ⟨q, hq, rfl⟩ := mem_mapChans.mp hp
      exact h.keysBound q hq
    · intro j hj
      have hj2 := (h.clientsNodup.mem_erase_iff).mp hj
      obtain ⟨c, hcmem⟩ := h.clientsHaveChans j hj2.2
      refine ⟨c, mem_mapChans.mpr ⟨(j, c), hcmem, ?_⟩⟩
      simp [hj2.1]
    · intro p hp
      obtain ⟨q, hq, rfl⟩ := mem_mapChans.mp hp
      by_cases hqid : q.1 = id
      · rcases h.chanOk q hq with ⟨_, h2, h3, _⟩ | ⟨h1, _⟩
        · refine Or.inr ⟨?_, by simp [hqid, closeChan, h2, h3]⟩
          rw [hqid]
          exact h.clientsNodup.not_mem_erase
        · exact absurd (hqid ▸ hm) h1
      · rcases h.chanOk q hq with ⟨h1, h2⟩ | ⟨h1, h2⟩
        · exact Or.inl ⟨(List.mem_erase_of_ne hqid).mpr h1, by simp [hqid, h2]⟩
        · exact Or.inr ⟨fun hmem => h1 (List.mem_of_mem_erase hmem), by simp [hqid, h2]⟩
    · intro hcl
      have := h.closedEmpty hcl
      rw [this] at hm
      cases hm
  · simpa [releaseAct, hm] using h

theorem wf_Notify {r : Reloader} (h : WellFormed r) : WellFormed (Notify r) := by
  by_cases hc : r.closed
  · simpa [Notify, hc] using h
  · simp only [Notify, if_neg hc]
    refine ⟨?_, ?_, ?_, ?_, ?_, ?_⟩ <;> dsimp only
    · rw [keys_mapChans]; exact h.keysNodup
    · exact h.clientsNodup
    · intro p hp
      obtain ⟨q, hq, rfl⟩ := mem_mapChans.mp hp
      exact h.keysBound q hq
    · intro j hj
      obtain ⟨c, hcmem⟩ := h.clientsHaveChans j hj
      exact ⟨if j ∈ r.clients then trySend c else c, mem_mapChans.mpr ⟨(j, c), hcmem, rfl⟩⟩
    · intro p hp
      obtain ⟨q, hq, rfl⟩ := mem_mapChans.mp hp
      rcases h.chanOk q hq with ⟨h1, h2, h3, h4⟩ | ⟨h1, h2⟩
      · refine Or.inl ⟨h1, ?_⟩
        rw [if_pos h1]
        unfold trySend
        by_cases hb : q.2.buf.length < 1
        · rw [if_pos hb]
          refine ⟨h2, h3, ?_⟩
          dsimp only
          simp only [List.length_append, List.length_singleton]
          omega
        · rw [if_neg hb]
          exact ⟨h2, h3, h4⟩
      · exact Or.inr ⟨h1, by rw [if_neg h1]; exact h2⟩
    · intro hcl; exact absurd hcl hc

theorem cancelStep_fields (r : Reloader) :
    (cancelStep r).closed = r.closed ∧ (cancelStep r).nextID = r.nextID ∧
    (cancelStep r).clients = r.clients ∧ (cancelStep r).chans = r.chans := by
  cases hw : r.watchCancel <;> simp [cancelStep, hw]

theorem wf_cancelStep {r : Reloader} (h : WellFormed r) : WellFormed (cancelStep r) := by
  cases hw : r.watchCancel with
  | none => simpa [cancelStep, hw] using h
  | some hd =>
    simp only [cancelStep, hw]
    exact ⟨h.keysNodup, h.clientsNodup, h.keysBound, h.clientsHaveChans, h.chanOk, h.closedEmpty⟩

theorem wf_Close {r : Reloader} (h : WellFormed r) : WellFormed (Close r) := by
  have h1 := wf_cancelStep h
  by_cases hc : (cancelStep r).closed
  · simpa [Close, hc] using h1
  · simp only [Close, if_neg hc]
    refine ⟨?_, ?_, ?_, ?_, ?_, ?_⟩ <;> dsimp only
    · rw [keys_mapChans]; exact h1.keysNodup
    · exact List.nodup_nil
    · intro p hp
      obtain ⟨q, hq, rfl⟩ := mem_mapChans.mp hp
      exact h1.keysBound q hq
    · intro j hj; cases hj
    · intro p hp
      obtain ⟨q, hq, rfl⟩ := mem_mapChans.mp hp
      rcases h1.chanOk q hq with ⟨hm, h2, h3, _⟩ | ⟨hm, h2⟩
      · exact Or.inr ⟨List.not_mem_nil _, by simp [if_pos hm, closeChan, h2, h3]⟩
      · exact Or.inr ⟨List.not_mem_nil _, by simp [if_neg hm, h2]⟩
    · intro _; rfl

theorem wf_Start {r : Reloader} (h : WellFormed r) (handle : Nat) :
    WellFormed (Start r handle) :=
  ⟨h.keysNodup, h.clientsNodup, h.keysBound, h.clientsHaveChans, h.chanOk, h.closedEmpty⟩

theorem wf_SetEnabled {r : Reloader} (h : WellFormed r) (b : Bool) :
    WellFormed (SetEnabled r b) :=
  ⟨h.keysNodup, h.clientsNodup, h.keysBound, h.clientsHaveChans, h.chanOk, h.closedEmpty⟩

/-- Every reachable notifier state is well-formed. -/
theorem reachable_wf {r : Reloader} (h : Reachable r) : WellFormed r := by
  induction h with
  | init config => exact wf_New config
  | step _ hs ih =>
    cases hs with
    | subscribeS => exact wf_subscribe ih
    | releaseS id => exact wf_releaseAct ih id
    | notifyS => exact wf_Notify ih
    | closeS => exact wf_Close ih
    | startS hd => exact wf_Start ih hd
    | setEnabledS b => exact wf_SetEnabled ih b

/-! ### Fingerprint lemmas -/

/-- A successful walk's hasher stream is determined by the tracked-file list. -/
theorem walkStream_ok_tracked : ∀ {d : FS} {s : String},
    walkStream d = Except.ok s → s = streamOfFiles (trackedFiles d) := by
  intro d
  induction d with
  | nil => intro s h; cases h; rfl
  | cons e rest ih =>
    intro s h
    match e with
    | FSEntry.dir p => exact ih h
    | FSEntry.walkErr m => cases h
    | FSEntry.file p (Except.error m) => cases h
    | FSEntry.file p (Except.ok i) =>
      simp only [walkStream] at h
      cases hr : walkStream rest with
      | error m => rw [hr] at h; cases h
      | ok t =>
        rw [hr] at h
        simp only [Except.map] at h
        cases h
        simp [trackedFiles, streamOfFiles, entryChunk, ih hr]

/-- Directory entries contribute nothing to the walked stream. -/
theorem walkStream_filter_dirs : ∀ d : FS,
    walkStream (d.filter (fun e => !isDirEntry e)) = walkStream d := by
  intro d
  induction d with
  | nil => rfl
  | cons e rest ih =>
    match e with
    | FSEntry.dir p =>
      have hf : List.filter (fun e => !isDirEntry e) (FSEntry.dir p :: rest)
          = List.filter (fun e => !isDirEntry e) rest := by
        simp [List.filter, isDirEntry]
      rw [hf, ih]
      simp [walkStream]
    | FSEntry.walkErr m =>
      have hf : List.filter (fun e => !isDirEntry e) (FSEntry.walkErr m :: rest)
          = FSEntry.walkErr m :: List.filter (fun e => !isDirEntry e) rest := by
        simp [List.filter, isDirEntry]
      rw [hf]
      simp [walkStream]
    | FSEntry.file p info =>
      have hf : List.filter (fun e => !isDirEntry e) (FSEntry.file p info :: rest)
          = FSEntry.file p info :: List.filter (fun e => !isDirEntry e) rest := by
        simp [List.filter, isDirEntry]
      rw [hf]
      cases info with
      | error m => rfl
      | ok i => simp only [walkStream, ih]

theorem hexEncode_length (l : List Nat) : (hexEncode l).length = 2 * l.length := by
  suffices hfold : ∀ acc : List Char,
      (l.foldr (fun b acc => hexDigit (b / 16) :: hexDigit (b % 16) :: acc) acc).length
        = 2 * l.length + acc.length by
    simpa [hexEncode, String.length] using hfold []
  induction l with
  | nil => intro acc; simp
  | cons b rest ih => intro acc; simp [ih]; omega

theorem sha1Bytes_length (msg : List Nat) : (sha1Bytes msg).length = 20 := by
  simp [sha1Bytes, wordBytes]

theorem sha1Hex_length (s : String) : (sha1Hex s).length = 40 := by
  rw [sha1Hex, hexEncode_length, sha1Bytes_length]

/-- A successful fingerprint is a 40-character hex digest. -/
theorem directoryFingerprint_ok_length {d : FS} {s : String}
    (h : directoryFingerprint d = Except.ok s) : s.length = 40 := by
  rw [directoryFingerprint] at h
  cases hw : walkStream d with
  | error m => rw [hw] at h; cases h
  | ok t =>
    rw [hw] at h
    simp only [Except.map] at h
    cases h
    exact sha1Hex_length t

/-- A successful fingerprint is never the zero-value string. -/
theorem directoryFingerprint_ok_ne_empty {d : FS} {s : String}
    (h : directoryFingerprint d = Except.ok s) : s ≠ "" := by
  intro he
  have := directoryFingerprint_ok_length h
  rw [he] at this
  simp [String.length] at this

/-! ### Operation lemmas -/

theorem Notify_closed (r : Reloader) : (Notify r).closed = r.closed := by
  by_cases hc : r.closed <;> simp [Notify, hc]

theorem Notify_clients (r : Reloader) : (Notify r).clients = r.clients := by
  by_cases hc : r.closed <;> simp [Notify, hc]

theorem Notify_nextID (r : Reloader) : (Notify r).nextID = r.nextID := by
  by_cases hc : r.closed <;> simp [Notify, hc]

/-- One `Notify` performs the non-blocking send on a registered channel. -/
theorem notify_step {r : Reloader} {id : Nat} {c : Chan} (hc : r.closed = false)
    (hm : id ∈ r.clients) (hf : findChan id r.chans = some c) :
    findChan id (Notify r).chans = some (trySend c) := by
  simp only [Notify, hc, Bool.false_eq_true, if_false]
  rw [findChan_mapChans, hf]
  simp [hm]

/-- On any channel respecting its capacity, the non-blocking send leaves
exactly one buffered token. -/
theorem trySend_buf {c : Chan} (hb : c.buf.length ≤ 1) :
    trySend c = { c with buf := [()] } := by
  cases hbuf : c.buf with
  | nil => simp [trySend, hbuf]
  | cons u t =>
    cases u
    have ht : t = [] := by
      rw [hbuf] at hb
      simp at hb
      exact hb
    subst ht
    have hlen : ¬ c.buf.length < 1 := by rw [hbuf]; simp
    rw [trySend, if_neg hlen]
    cases c
    simp only at hbuf
    simp [hbuf]

theorem insertIdem_self_mem (h : Nat) (l : List Nat) : h ∈ insertIdem h l := by
  by_cases hm : h ∈ l <;> simp [insertIdem, hm]

theorem insertIdem_of_mem {h : Nat} {l : List Nat} (hm : h ∈ l) : insertIdem h l = l := by
  simp [insertIdem, hm]

theorem cancelStep_watchCancel (r : Reloader) : (cancelStep r).watchCancel = r.watchCancel := by
  cases hw : r.watchCancel <;> simp [cancelStep, hw]

theorem cancelStep_cancelled (r : Reloader) :
    (cancelStep r).cancelled = match r.watchCancel with
      | some h => insertIdem h r.cancelled
      | none => r.cancelled := by
  cases hw : r.watchCancel <;> simp [cancelStep, hw]

theorem Close_watchCancel (r : Reloader) : (Close r).watchCancel = r.watchCancel := by
  by_cases hc : (cancelStep r).closed <;>
    simp [Close, hc, cancelStep_watchCancel]

theorem Close_cancelled (r : Reloader) : (Close r).cancelled = (cancelStep r).cancelled := by
  by_cases hc : (cancelStep r).closed <;> simp [Close, hc]

theorem Close_closed (r : Reloader) : (Close r).closed = true := by
  by_cases hc : (cancelStep r).closed <;> simp [Close, hc]

/-- A second `Close` finds nothing left to do, its cancel handle invocation
included. -/
theorem Close_Close (r : Reloader) : Close (Close r) = Close r := by
  have h1 : cancelStep (Close r) = Close r := by
    cases hw : r.watchCancel with
    | none =>
      have hwc : (Close r).watchCancel = none := by rw [Close_watchCancel, hw]
      simp [cancelStep, hwc]
    | some hd =>
      have hwc : (Close r).watchCancel = some hd := by rw [Close_watchCancel, hw]
      have hm : hd ∈ (Close r).cancelled := by
        rw [Close_cancelled, cancelStep_cancelled, hw]
        exact insertIdem_self_mem hd r.cancelled
      simp [cancelStep, hwc, insertIdem_of_mem hm]
      rw [← hwc]
  rw [Close, h1, if_pos (Close_closed r)]

theorem reachable_rEx : Reachable rEx :=
  (Reachable.init cfgEx).step (Step.subscribeS (New cfgEx))

theorem reachable_rClosedEx : Reachable rClosedEx :=
  reachable_rEx.step (Step.closeS rEx)

/-! ### The claims -/

/-- C1, counterexample: `directoryFingerprint` equality does NOT imply the
tracked files are unchanged.  The tree holding the single file `x:1:2;y`
(mtime 3, size 4) and the tree holding the files `x` (mtime 1, size 2) and `y`
(mtime 3, size 4) have different tracked-file lists, yet both feed the byte
stream `x:1:2;y:3:4;` to the hasher, so their SHA-1 digests are identical:
paths may contain `:` and `;`, making the `path:mtime:size;` serialisation
ambiguous.  Hence the claimed "equal iff nothing changed" fails in the
only-if direction. -/
theorem c1_fingerprint_not_injective :
    trackedFiles fsCollideA ≠ trackedFiles fsCollideB ∧
    directoryFingerprint fsCollideA = directoryFingerprint fsCollideB := by
  constructor
  · decide
  · exact congrArg (Except.map sha1Hex)
      (show walkStream fsCollideA = walkStream fsCollideB from rfl)

/-- C1, amended: if between two successful fingerprint computations no tracked
file was moved, added, removed, resized, or had its modification time changed
(i.e. the tracked-file lists coincide), the digests are equal; directory
entries contribute nothing to the digest; and fingerprinting the same
unchanged tree twice yields identical digests.  (The converse implication is
false, by `c1_fingerprint_not_injective`.) -/
theorem c1_fingerprint_spec :
    (∀ (d1 d2 : FS) (s1 s2 : String), walkStream d1 = Except.ok s1 →
      walkStream d2 = Except.ok s2 → trackedFiles d1 = trackedFiles d2 →
      directoryFingerprint d1 = directoryFingerprint d2) ∧
    (∀ d : FS, directoryFingerprint (d.filter (fun e => !isDirEntry e))
      = directoryFingerprint d) ∧
    (∀ d : FS, directoryFingerprint d = directoryFingerprint d) := by
  refine ⟨?_, ?_, fun d => rfl⟩
  · intro d1 d2 s1 s2 h1 h2 ht
    have hs : s1 = s2 := by
      rw [walkStream_ok_tracked h1, walkStream_ok_tracked h2, ht]
    simp only [directoryFingerprint]
    rw [h1, h2, hs]
  · intro d
    simp only [directoryFingerprint]
    rw [walkStream_filter_dirs]

/-- C1 witness: a tree with a directory entry and a file fingerprints
identically to the tree without the directory entry. -/
theorem c1_fingerprint_spec_witness :
    directoryFingerprint [FSEntry.dir "sub", FSEntry.file "a.txt" (Except.ok ⟨100, 3⟩)]
      = directoryFingerprint [FSEntry.file "a.txt" (Except.ok ⟨100, 3⟩)] :=
  c1_fingerprint_spec.1 _ _ "a.txt:100:3;" "a.txt:100:3;" rfl rfl rfl

/-- C2: `Notify` performs a non-blocking send on a subscriber's single-slot
channel: an empty slot receives a token, an occupied slot is left untouched,
and any `n ≥ 1` consecutive `Notify` calls before the subscriber drains leave
exactly one pending token (the buffer is `[()]`, length 1), not `n`. -/
theorem c2_notify_coalesces (r : Reloader) (id : Nat) (c : Chan)
    (hc : r.closed = false) (hm : id ∈ r.clients)
    (hf : findChan id r.chans = some c) (hb : c.buf.length ≤ 1) :
    (c.buf = [] → findChan id (Notify r).chans = some { c with buf := [()] }) ∧
    (c.buf ≠ [] → findChan id (Notify r).chans = some c) ∧
    (∀ n, 1 ≤ n → findChan id (Notify^[n] r).chans = some { c with buf := [()] }) := by
  have main : ∀ n : Nat, findChan id (Notify^[n + 1] r).chans = some { c with buf := [()] } ∧
      (Notify^[n + 1] r).closed = false ∧ id ∈ (Notify^[n + 1] r).clients := by
    intro n
    induction n with
    | zero =>
      refine ⟨?_, ?_, ?_⟩
      · rw [Function.iterate_one, notify_step hc hm hf, trySend_buf hb]
      · rw [Function.iterate_one, Notify_closed]; exact hc
      · rw [Function.iterate_one, Notify_clients]; exact hm
    | succ k ih =>
      obtain ⟨ihf, ihc, ihm⟩ := ih
      rw [Function.iterate_succ_apply']
      refine ⟨?_, ?_, ?_⟩
      · rw [notify_step ihc ihm ihf, trySend_buf (by simp)]
      · rw [Notify_closed]; exact ihc
      · rw [Notify_clients]; exact ihm

  refine ⟨?_, ?_, ?_⟩
  · intro hbuf
    rw [notify_step hc hm hf, trySend_buf hb]
  · intro hbuf
    have hone : c.buf = [()] := by
      cases hbuf2 : c.buf with
      | nil => exact absurd hbuf2 hbuf
      | cons u t =>
        cases u
        rw [hbuf2] at hb
        simp at hb
        rw [hb]
    rw [notify_step hc hm hf, trySend_buf hb]
    rw [show ({ c with buf := [()] } : Chan) = c by cases c; simp only at hone; simp [hone]]
  · intro n hn
    obtain ⟨m, rfl⟩ : ∃ m, n = m + 1 := ⟨n - 1, by omega⟩
    exact (main m).1

/-- C2 witness: three consecutive `Notify` calls on a one-subscriber notifier
leave a single pending token in the subscriber's channel. -/
theorem c2_notify_coalesces_witness :
    findChan 0 (Notify^[3] rEx).chans
      = some { buf := [()], isClosed := false, closeCount := 0 } :=
  (c2_notify_coalesces rEx 0 newChan rfl (by decide) (by decide) (by decide)).2.2 3 (by decide)

/-- C3: in every reachable state whose `closed` flag is set, the subscriber
mapping is empty, `subscribe` returns the state unchanged together with the
nil channel (`none`), adding no entry, and the accompanying release function
is a no-op every time it is invoked. -/
theorem c3_closed_invariant (r : Reloader) (h : Reachable r) (hc : r.closed = true) :
    r.clients = [] ∧ subscribe r = (r, none) ∧
    ∀ fired : Bool, subRelease r none fired = (r, fired) :=
  ⟨(reachable_wf h).closedEmpty hc, by simp [subscribe, hc], fun fired => rfl⟩

/-- C3 witness: the closed one-subscriber notifier has an empty mapping and
rejects a new subscription with the nil channel. -/
theorem c3_closed_invariant_witness :
    rClosedEx.clients = [] ∧ subscribe rClosedEx = (rClosedEx, none) ∧
    ∀ fired : Bool, subRelease rClosedEx none fired = (rClosedEx, fired) :=
  c3_closed_invariant rClosedEx reachable_rClosedEx rfl

/-- C4: `Close` is idempotent — a second call yields the identical state, with
no channel closed a second time — and the first call marks the notifier
closed, closes every subscribed channel (exactly once), empties the mapping,
and leaves channels no longer in the mapping untouched. -/
theorem c4_close_idempotent (r : Reloader) :
    Close (Close r) = Close r ∧
    (Close r).closed = true ∧
    (r.closed = false →
      (Close r).clients = [] ∧
      (∀ id c, id ∈ r.clients → findChan id r.chans = some c →
        findChan id (Close r).chans = some (closeChan c)) ∧
      (∀ id c, id ∉ r.clients → findChan id r.chans = some c →
        findChan id (Close r).chans = some c)) := by
  refine ⟨Close_Close r, Close_closed r, fun hc => ?_⟩
  have hc1 : (cancelStep r).closed = false := by rw [(cancelStep_fields r).1, hc]
  have hcl : (cancelStep r).clients = r.clients := (cancelStep_fields r).2.2.1
  have hch : (cancelStep r).chans = r.chans := (cancelStep_fields r).2.2.2
  refine ⟨by simp [Close, hc1], ?_, ?_⟩
  · intro id c hm hf
    simp only [Close, hc1, Bool.false_eq_true, if_false]
    rw [hch, findChan_mapChans, hf, hcl]
    simp [hm]
  · intro id c hm hf
    simp only [Close, hc1, Bool.false_eq_true, if_false]
    rw [hch, findChan_mapChans, hf, hcl]
    simp [hm]

/-- C4 witness: closing the one-subscriber notifier twice equals closing it
once, and the first close closes the subscriber's channel. -/
theorem c4_close_idempotent_witness :
    Close (Close rEx) = Close rEx ∧
    findChan 0 (Close rEx).chans = some (closeChan newChan) := by
  obtain ⟨h1, _, h3⟩ := c4_close_idempotent rEx
  exact ⟨h1, (h3 rfl).2.1 0 newChan (by decide) (by decide)⟩

/-- C5: the streaming handler answers 405 to any non-GET request with the
notifier state untouched (no subscription happens); 500 to a GET whose writer
cannot flush incrementally; 410 to a GET arriving on a closed notifier; and
otherwise opens the stream with `: connected` plus a blank line and writes
`data: reload` plus a blank line once per signal received on its channel. -/
theorem c5_handler_protocol :
    (∀ (r : Reloader) (m : String) (cf : Bool) (evs : List StreamEv), m ≠ "GET" →
      Handler r m cf evs
        = (r, { status := 405, headers := errHeaders, body := "method not allowed\n" })) ∧
    (∀ (r : Reloader) (evs : List StreamEv),
      Handler r "GET" false evs
        = (r, { status := 500, headers := errHeaders, body := "streaming unsupported\n" })) ∧
    (∀ (r : Reloader) (evs : List StreamEv), r.closed = true →
      Handler r "GET" true evs = (r, { status := 410, headers := sseHeaders, body := "" })) ∧
    (∀ (r : Reloader) (evs : List StreamEv), r.closed = false →
      (Handler r "GET" true evs).2.status = 200 ∧
      (Handler r "GET" true evs).2.body = ": connected\n\n" ++ streamLoop evs) ∧
    (∀ n : Nat, streamLoop (List.replicate n StreamEv.chRecv) = reloadBody n) := by
  refine ⟨?_, ?_, ?_, ?_, ?_⟩
  · intro r m cf evs hm
    simp [Handler, hm]
  · intro r evs
    simp [Handler]
  · intro r evs hc
    simp [Handler, subscribe, hc]
  · intro r evs hc
    simp [Handler, subscribe, hc]
  · intro n
    induction n with
    | zero => rfl
    | succ k ih => simp [List.replicate, streamLoop, reloadBody, ih]

/-- C5 witness: the four handler outcomes at concrete requests. -/
theorem c5_handler_protocol_witness :
    Handler (New cfgEx) "POST" true []
      = (New cfgEx, { status := 405, headers := errHeaders, body := "method not allowed\n" }) ∧
    Handler (New cfgEx) "GET" false []
      = (New cfgEx, { status := 500, headers := errHeaders, body := "streaming unsupported\n" }) ∧
    Handler rClosedEx "GET" true []
      = (rClosedEx, { status := 410, headers := sseHeaders, body := "" }) ∧
    (Handler rEx "GET" true [StreamEv.chRecv, StreamEv.chRecv, StreamEv.ctxDone]).2.body
      = ": connected\n\ndata: reload\n\ndata: reload\n\n" := by
  obtain ⟨h1, h2, h3, h4, _⟩ := c5_handler_protocol
  refine ⟨h1 _ "POST" true [] (by decide), h2 _ [], h3 _ [] rfl, ?_⟩
  rw [(h4 rEx [StreamEv.chRecv, StreamEv.chRecv, StreamEv.ctxDone] rfl).2]
  decide

/-- C6: watcher read errors are never fatal.  An initial scan error leaves
`lastFingerprint` at the zero value `""`, and the first later successful scan
necessarily differs from `""` (digests have 40 characters), so it broadcasts;
a mid-run scan error is "no change this tick" (no broadcast, stored value
unchanged); and the loop never exits on a schedule of ticks alone — it exits
exactly when the cancellation event arrives. -/
theorem c6_watcher_error_resilience :
    (∀ (dir : FS) (e : String), directoryFingerprint dir = Except.error e →
      watchInit dir = "") ∧
    (∀ (dir : FS) (s : String), directoryFingerprint dir = Except.ok s →
      watchTick "" dir = (s, true)) ∧
    (∀ (last : String) (dir : FS) (e : String), directoryFingerprint dir = Except.error e →
      watchTick last dir = (last, false)) ∧
    (∀ (last : String) (n : Nat) (ticks : List FS),
      (watchRun last n (ticks.map TickEv.tick)).2.2 = false) ∧
    (∀ (last : String) (n : Nat) (ticks : List FS) (rest : List TickEv),
      (watchRun last n (ticks.map TickEv.tick ++ TickEv.done :: rest)).2.2 = true) := by
  have noExit : ∀ (ticks : List FS) (last : String) (n : Nat),
      (watchRun last n (ticks.map TickEv.tick)).2.2 = false := by
    intro ticks
    induction ticks with
    | nil => intro last n; rfl
    | cons d ds ih =>
      intro last n
      simp only [List.map_cons, watchRun]
      rcases watchTick last d with ⟨l1, nt⟩
      exact ih _ _
  have exitsOnDone : ∀ (ticks : List FS) (last : String) (n : Nat) (rest : List TickEv),
      (watchRun last n (ticks.map TickEv.tick ++ TickEv.done :: rest)).2.2 = true := by
    intro ticks
    induction ticks with
    | nil => intro last n rest; rfl
    | cons d ds ih =>
      intro last n rest
      simp only [List.map_cons, List.cons_append, watchRun]
      rcases watchTick last d with ⟨l1, nt⟩
      exact ih _ _ _
  refine ⟨?_, ?_, ?_, fun last n ticks => noExit ticks last n,
    fun last n ticks rest => exitsOnDone ticks last n rest⟩
  · intro dir e h
    simp [watchInit, h]
  · intro dir s h
    simp [watchTick, h, directoryFingerprint_ok_ne_empty h]
  · intro last dir e h
    simp [watchTick, h]

/-- C6 witness: an unreadable tree leaves the initial fingerprint empty, the
empty tree's digest then triggers a broadcast, a later error tick changes
nothing, and only the cancellation event ends the loop. -/
theorem c6_watcher_error_resilience_witness :
    watchInit [FSEntry.walkErr "boom"] = "" ∧
    watchTick "" ([] : FS) = (sha1Hex "", true) ∧
    watchTick "abc" [FSEntry.walkErr "boom"] = ("abc", false) ∧
    (watchRun "" 0 [TickEv.tick [FSEntry.walkErr "boom"]]).2.2 = false ∧
    (watchRun "" 0 [TickEv.tick [FSEntry.walkErr "boom"], TickEv.done]).2.2 = true := by
  obtain ⟨h1, h2, h3, h4, h5⟩ := c6_watcher_error_resilience
  exact ⟨h1 _ "boom" rfl, h2 [] (sha1Hex "") rfl, h3 "abc" _ "boom" rfl,
    h4 "" 0 [[FSEntry.walkErr "boom"]], h5 "" 0 [[FSEntry.walkErr "boom"]] []⟩

/-- C7: in every reachable state, every channel ever handed to a subscriber
has been closed at most once — exactly once as soon as it is closed at all,
never while it is still registered — and both late release paths are no-ops:
releasing an id no longer in the mapping (e.g. after `Close` removed it)
leaves the state untouched, as does re-running a release whose `sync.Once`
already fired. -/
theorem c7_channel_closed_once (r : Reloader) (h : Reachable r) :
    (∀ id c, findChan id r.chans = some c →
      c.closeCount ≤ 1 ∧ (c.isClosed = true → c.closeCount = 1) ∧
      (c.isClosed = false → c.closeCount = 0)) ∧
    (∀ id, id ∉ r.clients → releaseAct r id = r) ∧
    (∀ id, subRelease r (some id) true = (r, true)) := by
  refine ⟨?_, ?_, fun id => rfl⟩
  · intro id c hf
    have hmem := findChan_mem hf
    rcases (reachable_wf h).chanOk _ hmem with ⟨hm1, h2, h3, h4⟩ | ⟨hm1, h2, h3⟩ <;>
      dsimp only at h2 h3
    · refine ⟨by omega, fun hcl => ?_, fun _ => h3⟩
      rw [h2] at hcl; cases hcl
    · refine ⟨by omega, fun _ => h3, fun hcl => ?_⟩
      rw [h2] at hcl; cases hcl
  · intro id hm
    simp [releaseAct, hm]

/-- C7 witness: after `Close`, subscriber 0's channel was closed exactly once
and releasing it again changes nothing. -/
theorem c7_channel_closed_once_witness :
    (closeChan newChan).closeCount = 1 ∧ releaseAct rClosedEx 0 = rClosedEx :=
  ⟨((c7_channel_closed_once rClosedEx reachable_rClosedEx).1 0 (closeChan newChan)
      (by decide)).2.1 rfl,
    (c7_channel_closed_once rClosedEx reachable_rClosedEx).2.1 0 (by decide)⟩

/-- C8: `Notify` deposits tokens only into channels registered at the moment
it runs — a channel whose id is not in the mapping is untouched — and a
subscription created after a `Notify` call starts with a fresh empty channel,
so a late joiner never sees the earlier notification. -/
theorem c8_late_joiner (r : Reloader) :
    (∀ id, id ∉ r.clients → findChan id (Notify r).chans = findChan id r.chans) ∧
    (r.closed = false →
      ∃ r1, subscribe (Notify r) = (r1, some r.nextID) ∧
        findChan r.nextID r1.chans = some newChan) := by
  constructor
  · intro id hm
    by_cases hc : r.closed
    · simp [Notify, hc]
    · simp only [Notify, hc, Bool.false_eq_true, if_false]
      rw [findChan_mapChans]
      cases hf : findChan id r.chans with
      | none => rfl
      | some c => simp [hm]
  · intro hc
    have hnc : (Notify r).closed = false := by rw [Notify_closed]; exact hc
    have hnid : (Notify r).nextID = r.nextID := Notify_nextID r
    refine ⟨(subscribe (Notify r)).1, ?_, ?_⟩
    · simp only [subscribe, hnc, Bool.false_eq_true, if_false, hnid]
    · simp only [subscribe, hnc, Bool.false_eq_true, if_false]
      rw [hnid, findChan, if_pos rfl]

/-- C8 witness: with subscriber 0's token pending after a `Notify`, the next
subscription (id 1) starts with an empty channel. -/
theorem c8_late_joiner_witness :
    findChan 5 (Notify rEx).chans = findChan 5 rEx.chans ∧
    ∃ r1, subscribe (Notify rEx) = (r1, some 1) ∧ findChan 1 r1.chans = some newChan :=
  ⟨(c8_late_joiner rEx).1 5 (by decide), (c8_late_joiner rEx).2 rfl⟩

/-- C9: when disabled, the cache middleware delegates with the response
headers untouched (it adds no Cache-Control header); when enabled, it sets
`Cache-Control: stale-while-revalidate, max-age=<seconds>` before delegating,
where `<seconds>` was computed at construction by truncating the configured
max-age duration to whole seconds. -/
theorem c9_cache_middleware (r : Reloader) (handler : Headers → Headers) (hs : Headers) :
    (Enabled r = false → CacheMiddleware r handler hs = handler hs) ∧
    (Enabled r = true → CacheMiddleware r handler hs
      = handler (setHeader hs "Cache-Control"
          ("stale-while-revalidate, max-age=" ++ toString r.maxAge))) ∧
    (∀ config : Config, (New config).maxAge = Int.tdiv config.maxAgeNanos 1000000000) := by
  refine ⟨?_, ?_, fun config => rfl⟩ <;> intro he <;> simp [CacheMiddleware, he]

/-- C9 witness: disabled pass-through adds nothing; enabled with
`MaxAge: time.Hour` sets `max-age=3600`. -/
theorem c9_cache_middleware_witness :
    CacheMiddleware (New { route := "/dev/reload", enabled := false, maxAgeNanos := 3600000000000 })
      (fun hs => hs) [] = [] ∧
    CacheMiddleware (New cfgEx) (fun hs => hs) []
      = [("Cache-Control", "stale-while-revalidate, max-age=3600")] := by
  constructor
  · exact (c9_cache_middleware _ (fun hs => hs) []).1 rfl
  · rw [(c9_cache_middleware (New cfgEx) (fun hs => hs) []).2.1 rfl]
    decide

/-- C10: `Start` unconditionally overwrites the stored watcher-cancellation
handle (so after two `Start`s only the most recent handle remains), a fresh
notifier stores no handle, and `Close` invokes the stored handle exactly when
one is present — `Close` without a prior `Start` cancels nothing, and after
repeated `Start`s it cancels only the most recent watcher. -/
theorem c10_start_close_cancellation (r : Reloader) (h1 h2 : Nat) :
    (Start r h1).watchCancel = some h1 ∧
    (Start (Start r h1) h2).watchCancel = some h2 ∧
    (∀ config : Config, (New config).watchCancel = none) ∧
    (r.watchCancel = none → (Close r).cancelled = r.cancelled) ∧
    (∀ hd, r.watchCancel = some hd → (Close r).cancelled = insertIdem hd r.cancelled) ∧
    (h1 ≠ h2 → h1 ∉ r.cancelled →
      h1 ∉ (Close (Start (Start r h1) h2)).cancelled ∧
      h2 ∈ (Close (Start (Start r h1) h2)).cancelled) := by
  refine ⟨rfl, rfl, fun config => rfl, ?_, ?_, ?_⟩
  · intro hw
    rw [Close_cancelled, cancelStep_cancelled, hw]
  · intro hd hw
    rw [Close_cancelled, cancelStep_cancelled, hw]
  · intro hne hnm
    have hw2 : (Start (Start r h1) h2).watchCancel = some h2 := rfl
    have hcc : (Close (Start (Start r h1) h2)).cancelled = insertIdem h2 r.cancelled := by
      rw [Close_cancelled, cancelStep_cancelled, hw2]
      rfl
    rw [hcc]
    constructor
    · by_cases hm2 : h2 ∈ r.cancelled <;> simp [insertIdem, hm2, hnm, hne]
    · exact insertIdem_self_mem h2 r.cancelled

/-- C10 witness: on a fresh notifier started twice with handles 1 then 2,
`Close` cancels handle 2 and not handle 1; `Close` without `Start` cancels
nothing. -/
theorem c10_start_close_cancellation_witness :
    (Start (Start (New cfgEx) 1) 2).watchCancel = some 2 ∧
    (Close (New cfgEx)).cancelled = (New cfgEx).cancelled ∧
    1 ∉ (Close (Start (Start (New cfgEx) 1) 2)).cancelled ∧
    2 ∈ (Close (Start (Start (New cfgEx) 1) 2)).cancelled := by
  obtain ⟨_, b, _, d, _, f⟩ := c10_start_close_cancellation (New cfgEx) 1 2
  exact ⟨b, d rfl, (f (by decide) (by decide)).1, (f (by decide) (by decide)).2⟩

end Goreload
